import Mathlib

/-!
Shallow embedding of the turntable playback core
(`src/turntable-core/src/ingestion/sink.rs` and
`src/turntable-core/src/playback/timeline.rs`), together with models of
the pieces those files depend on (`MultiRangeBuffer`, `Config`,
`PipelineContext`) that are described in the specification but whose
source is not part of the tree.

`usize` is modelled as `Nat` (all arithmetic in the translated code is
saturating or bounds-checked, so no wrap-around occurs); `Vec`/slices
become `List`; the shared-memory `Arc<Sink>` graph becomes an explicit
store keyed by sink id, so that two occurrences of the same id alias the
same sink, exactly as two clones of one `Arc` do.
-/

namespace Turntable

/-- usize::MAX, for the `unwrap_or(usize::MAX)` defaults in the source. -/
def USIZE_MAX : Nat := 2 ^ 64 - 1

/-- Result of `MultiRangeBuffer::distance_from_void` (see spec §3):
how many contiguous samples are available starting at an offset, and
whether that run ends at the buffer's expected end. -/
structure BufferVoidDistance where
  distance : Nat
  is_end : Bool
deriving DecidableEq

/-- Modelled from the spec: `MultiRangeBuffer` (its source file is not in
the tree; §3 and §4.1 of the specification describe it).  Only occupancy
matters to the timeline claims, so a range is kept as a pair
`(start, stop)` meaning the half-open interval of populated offsets;
ranges are disjoint, sorted and merged when they touch, and clipped at
`expected_length`, as §4.1 requires.  Sample values are not tracked. -/
structure MultiRangeBuffer where
  expected_length : Nat
  ranges : List (Nat × Nat)
deriving DecidableEq

/-- Insert a nonempty range into a sorted, disjoint, merged range list,
merging with every range it overlaps or touches (spec §4.1: adjacent
ranges with touching endpoints must be merged on write). -/
def insertRange : Nat × Nat → List (Nat × Nat) → List (Nat × Nat)
  | r, [] => [r]
  | (s, e), (s2, e2) :: rest =>
    if e < s2 then (s, e) :: (s2, e2) :: rest
    else if e2 < s then (s2, e2) :: insertRange (s, e) rest
    else insertRange (min s s2, max e e2) rest

/-- Modelled from the spec: `MultiRangeBuffer::write` truncated at
`expected_length` (§4.1); only the occupied interval is recorded. -/
def MultiRangeBuffer.write (b : MultiRangeBuffer) (offset len : Nat) : MultiRangeBuffer :=
  let stop := min (offset + len) b.expected_length
  if offset < stop then { b with ranges := insertRange (offset, stop) b.ranges } else b

/-- Modelled from the spec: `MultiRangeBuffer::distance_from_void`
(§4.1): length of the contiguous populated run starting at `offset`
(0 when `offset` is not covered), with `is_end` true exactly when the
run ends at `expected_length`. -/
def MultiRangeBuffer.distance_from_void (b : MultiRangeBuffer) (offset : Nat) :
    BufferVoidDistance :=
  match b.ranges.find? (fun r => decide (r.1 ≤ offset ∧ offset < r.2)) with
  | some r => { distance := r.2 - offset, is_end := r.2 == b.expected_length }
  | none => { distance := 0, is_end := offset == b.expected_length }

/-- Modelled from the spec: `MultiRangeBuffer::retain_window` (§4.1):
drop everything outside `[offset - window, offset + window]`, rounded
outward to multiples of `chunk`. -/
def MultiRangeBuffer.retain_window (b : MultiRangeBuffer) (offset window chunk : Nat) :
    MultiRangeBuffer :=
  let lo := ((offset - window) / max chunk 1) * max chunk 1
  let hi := ((offset + window + (max chunk 1 - 1)) / max chunk 1) * max chunk 1
  { b with
    ranges := b.ranges.filterMap fun r =>
      if max r.1 lo < min r.2 hi then some (max r.1 lo, min r.2 hi) else none }

/-- `SinkState` from `sink.rs`. -/
inductive SinkState
  | idle
  | active
  | loading
  | sealed
  | error (reason : String)
deriving DecidableEq

/-- `Sink::is_playable` from `sink.rs`: Active, Loading or Sealed. -/
def SinkState.is_playable : SinkState → Bool
  | .active | .loading | .sealed => true
  | _ => false

/-- `Sink::is_loadable` from `sink.rs`: not Error, Sealed or Idle. -/
def SinkState.is_loadable : SinkState → Bool
  | .error _ | .sealed | .idle => false
  | _ => true

/-- `Sink::is_clearable` from `sink.rs`: state equals Idle. -/
def SinkState.is_clearable (s : SinkState) : Bool := s == SinkState.idle

/-- `PipelineEvent::SinkStateUpdate` — the one event variant the claims
touch; sink ids are `Nat`. -/
inductive PipelineEvent
  | SinkStateUpdate (sink_id : Nat) (new_state : SinkState)
deriving DecidableEq

/-- The mutable per-sink data behind one `Arc<Sink>`: expected length,
buffer, and state (`sink.rs`). -/
structure SinkData where
  expected_length : Option Nat
  buffer : MultiRangeBuffer
  state : SinkState
deriving DecidableEq

/-- `Sink::new` from `sink.rs`: buffer capped at `expected_length` or
`usize::MAX`, initial state Idle. -/
def SinkData.new (expected_length : Option Nat) : SinkData :=
  { expected_length := expected_length
    buffer := { expected_length := expected_length.getD USIZE_MAX, ranges := [] }
    state := SinkState.idle }

/-- `Sink::set_state` from `sink.rs`: when the new state differs from the
current one, emit a `SinkStateUpdate` event and store the new state.
Returns the updated sink together with the emitted events. -/
def SinkData.set_state (d : SinkData) (id : Nat) (s : SinkState) :
    SinkData × List PipelineEvent :=
  if d.state ≠ s then ({ d with state := s }, [PipelineEvent.SinkStateUpdate id s])
  else (d, [])

/-- The primitive steps performed by the body of `Sink::set_state`, used
to talk about their program order. -/
inductive SinkAction
  | emit (e : PipelineEvent)
  | store (s : SinkState)
deriving DecidableEq

/-- The body of `Sink::set_state` as the sequence of primitive actions it
performs, in program order (`sink.rs` lines 64–75): when the state
changes, the event is emitted first and the state is stored second. -/
def set_state_actions (id : Nat) (current new : SinkState) : List SinkAction :=
  if current ≠ new then
    [SinkAction.emit (PipelineEvent.SinkStateUpdate id new), SinkAction.store new]
  else []

/-- A `SinkAction` trace delivers the event only after the stored
transition when some `store` strictly precedes the first `emit`. -/
def storePrecedesEmit : List SinkAction → Bool
  | [] => false
  | SinkAction.emit _ :: _ => false
  | SinkAction.store _ :: rest =>
    rest.any (fun a => match a with | SinkAction.emit _ => true | _ => false) ||
      storePrecedesEmit rest

/-- `Sink::distance_from_void` from `sink.rs`: delegates to the buffer. -/
def SinkData.distance_from_void (d : SinkData) (offset : Nat) : BufferVoidDistance :=
  d.buffer.distance_from_void offset

/-- `Sink::distance_from_end` from `sink.rs`:
`expected_length.unwrap_or(usize::MAX).saturating_sub(offset)`. -/
def SinkData.distance_from_end (d : SinkData) (offset : Nat) : Nat :=
  d.expected_length.getD USIZE_MAX - offset

/-- `Sink::write` from `sink.rs`: delegates to the buffer (`len` is the
number of samples written; values are not tracked). -/
def SinkData.write (d : SinkData) (offset len : Nat) : SinkData :=
  { d with buffer := d.buffer.write offset len }

/-- `Sink::clear_outside` from `sink.rs`: delegates to
`MultiRangeBuffer::retain_window`. -/
def SinkData.clear_outside (d : SinkData) (offset window chunk : Nat) : SinkData :=
  { d with buffer := d.buffer.retain_window offset window chunk }

/-- `Sink::is_playable` read through the data. -/
def SinkData.is_playable (d : SinkData) : Bool := d.state.is_playable

/-- `Sink::is_loadable` read through the data. -/
def SinkData.is_loadable (d : SinkData) : Bool := d.state.is_loadable

/-- The shared world: the store of live sinks keyed by id (modelling the
`Arc<Sink>` graph — every holder of an id sees the same data) plus the
event bus (`PipelineContext`; modelled from the spec §5: append-only,
events recorded in emission order). -/
structure Pipeline where
  sinks : List (Nat × SinkData)
  events : List PipelineEvent
deriving DecidableEq

/-- Dereference a sink id.  A dangling id (never the case in the source,
where an `Arc` keeps its sink alive) yields an inert empty idle sink. -/
def Pipeline.find (p : Pipeline) (id : Nat) : SinkData :=
  match p.sinks.find? (fun e => e.1 == id) with
  | some e => e.2
  | none => SinkData.new (some 0)

/-- Replace the data of the sink `id` in the store. -/
def Pipeline.modifySink (p : Pipeline) (id : Nat) (f : SinkData → SinkData) : Pipeline :=
  { p with sinks := p.sinks.map fun e => if e.1 = id then (e.1, f e.2) else e }

/-- `Sink::set_state` acting on the world: update the stored sink and
append the emitted events to the bus. -/
def Pipeline.setState (p : Pipeline) (id : Nat) (s : SinkState) : Pipeline :=
  let r := (p.find id).set_state id s
  { (p.modifySink id fun _ => r.1) with events := p.events ++ r.2 }

/-- `Sink::write` acting on the world. -/
def Pipeline.writeSink (p : Pipeline) (id offset len : Nat) : Pipeline :=
  p.modifySink id fun d => d.write offset len

/-- `Config` modelled from the spec (§3; its source file is not in the
tree): sample rate, channel count and the preload durations.  The spec
derives `preload_threshold_in_samples = ceil(threshold_secs * sample_rate)
* channel_count`; durations are modelled as whole seconds, on which the
ceiling is exact. -/
structure Config where
  sample_rate : Nat
  channel_count : Nat
  preload_threshold_in_seconds : Nat
  preload_size_in_seconds : Nat
deriving DecidableEq

/-- Modelled from the spec: `Config::preload_threshold_in_samples`. -/
def Config.preload_threshold_in_samples (c : Config) : Nat :=
  c.preload_threshold_in_seconds * c.sample_rate * c.channel_count

/-- Modelled from the spec: `Config::preload_size_in_samples`. -/
def Config.preload_size_in_samples (c : Config) : Nat :=
  c.preload_size_in_seconds * c.sample_rate * c.channel_count

/-- `Timeline` from `timeline.rs`: the sink queue (as ids into the shared
store), the playback offset of the first sink, and the total offset. -/
structure Timeline where
  config : Config
  sinkIds : List Nat
  offset : Nat
  total_offset : Nat
deriving DecidableEq

/-- `Timeline::new`. -/
def Timeline.new (c : Config) : Timeline :=
  { config := c, sinkIds := [], offset := 0, total_offset := 0 }

/-- `TimelineRead` from `timeline.rs` (the `Arc<Sink>` field is kept as
the sink's id, which is how reads are compared). -/
structure TimelineRead where
  sink : Nat
  offset : Nat
  amount : Nat
deriving DecidableEq

/-- `TimelinePreload` from `timeline.rs`. -/
structure TimelinePreload where
  sink_id : Nat
  offset : Nat
deriving DecidableEq

/-- `Timeline::set_sinks` from `timeline.rs`: deactivate every sink of
the current list, activate every sink of the new list, install the new
list.  (The loops are unconditional in the source.) -/
def Timeline.set_sinks (t : Timeline) (p : Pipeline) (ids : List Nat) :
    Timeline × Pipeline :=
  let p1 := t.sinkIds.foldl (fun acc id => acc.setState id SinkState.idle) p
  let p2 := ids.foldl (fun acc id => acc.setState id SinkState.active) p1
  ({ t with sinkIds := ids }, p2)

/-- The loop body of `Timeline::advance` (`timeline.rs` lines 73–119),
walking the snapshot of playable sinks.  Returns the reads, the updated
timeline and world, and the remaining amount. -/
def Timeline.advanceLoop (p : Pipeline) (t : Timeline) (remaining playback_offset : Nat) :
    List Nat → List TimelineRead × Timeline × Pipeline × Nat
  | [] => ([], t, p, remaining)
  | id :: rest =>
    if remaining = 0 then ([], t, p, remaining)
    else
      let avail := (p.find id).distance_from_void playback_offset
      let amount_to_read := min avail.distance remaining
      let reads1 : List TimelineRead :=
        if 0 < amount_to_read then
          [{ sink := id, offset := playback_offset, amount := amount_to_read }]
        else []
      let t2 : Timeline :=
        if 0 < amount_to_read then
          { t with offset := playback_offset + amount_to_read,
                   total_offset := t.total_offset + amount_to_read }
        else t
      if (p.find id).is_loadable = false ∧ avail.is_end = true ∧
          avail.distance - amount_to_read = 0 then
        let p3 := p.setState id SinkState.idle
        let t3 := { t2 with offset := 0,
                            sinkIds := t2.sinkIds.filter fun s => s != id }
        let r := Timeline.advanceLoop p3 t3 (remaining - amount_to_read) 0 rest
        (reads1 ++ r.1, r.2.1, r.2.2.1, r.2.2.2)
      else (reads1, t2, p, remaining - amount_to_read)

/-- The snapshot `Timeline::advance` takes: the playable sinks, in order. -/
def Timeline.playable (t : Timeline) (p : Pipeline) : List Nat :=
  t.sinkIds.filter fun id => (p.find id).is_playable

/-- `Timeline::advance` from `timeline.rs`. -/
def Timeline.advance (t : Timeline) (p : Pipeline) (amount : Nat) :
    List TimelineRead × Timeline × Pipeline :=
  let r := Timeline.advanceLoop p t amount t.offset (t.playable p)
  (r.1, r.2.1, r.2.2.1)

/-- The loop body of `Timeline::preload` (`timeline.rs` lines 136–160). -/
def Timeline.preloadLoop (p : Pipeline) (threshold : Nat) (remaining_to_load offset : Nat) :
    List Nat → List TimelinePreload
  | [] => []
  | id :: rest =>
    let d := p.find id
    let avail := d.distance_from_void offset
    if threshold ≤ avail.distance ∨ remaining_to_load = 0 then []
    else if d.is_loadable then
      { sink_id := id, offset := avail.distance + offset } ::
        Timeline.preloadLoop p threshold
          (remaining_to_load - min (d.distance_from_end offset) remaining_to_load) 0 rest
    else Timeline.preloadLoop p threshold remaining_to_load 0 rest

/-- `Timeline::preload` from `timeline.rs`: walk all queued sinks with a
budget of `preload_threshold_in_samples`. -/
def Timeline.preload (t : Timeline) (p : Pipeline) : List TimelinePreload :=
  Timeline.preloadLoop p t.config.preload_threshold_in_samples
    t.config.preload_threshold_in_samples t.offset t.sinkIds

/-- `Timeline::clear_superflous` from `timeline.rs`. -/
def Timeline.clear_superflous (t : Timeline) (p : Pipeline) : Pipeline :=
  match t.sinkIds with
  | [] => p
  | id :: _ =>
    p.modifySink id fun d =>
      d.clear_outside t.offset (t.config.preload_size_in_samples * 4) t.config.channel_count

/-- `Timeline::reset` from `timeline.rs`. -/
def Timeline.reset (t : Timeline) : Timeline := { t with offset := 0 }

/-- The operations that can touch a timeline or its sinks, for claims
quantifying over operation sequences. -/
inductive TimelineOp
  | advanceOp (amount : Nat)
  | setSinksOp (ids : List Nat)
  | preloadOp
  | resetOp
  | clearOp
  | writeOp (id offset len : Nat)
  | sinkStateOp (id : Nat) (s : SinkState)

/-- Apply one operation; the returned list collects the `TimelineRead`s
produced when the operation is an `advance`. -/
def applyOp : Timeline × Pipeline → TimelineOp → (Timeline × Pipeline) × List TimelineRead
  | (t, p), TimelineOp.advanceOp n =>
    let r := t.advance p n
    ((r.2.1, r.2.2), r.1)
  | (t, p), TimelineOp.setSinksOp ids => (t.set_sinks p ids, [])
  | (t, p), TimelineOp.preloadOp => ((t, p), [])
  | (t, p), TimelineOp.resetOp => ((t.reset, p), [])
  | (t, p), TimelineOp.clearOp => ((t, t.clear_superflous p), [])
  | (t, p), TimelineOp.writeOp id offset len => ((t, p.writeSink id offset len), [])
  | (t, p), TimelineOp.sinkStateOp id s => ((t, p.setState id s), [])

/-- Run a sequence of operations, collecting every returned read in
order. -/
def runOps : Timeline × Pipeline → List TimelineOp → (Timeline × Pipeline) × List TimelineRead
  | s, [] => (s, [])
  | s, op :: rest =>
    let r1 := applyOp s op
    let r2 := runOps r1.1 rest
    (r2.1, r1.2 ++ r2.2)

/-- Sum of the `amount` fields of a list of reads. -/
def sumAmounts (rs : List TimelineRead) : Nat := (rs.map fun r => r.amount).sum

/-- How many samples the walk of `Timeline::advance` can obtain from a
list of sinks starting at a cursor: each sink contributes its contiguous
run from the cursor, and the walk passes to the next sink only when the
current one is finished (not loadable and its run ends at the expected
end). -/
def Pipeline.supply (p : Pipeline) : List Nat → Nat → Nat
  | [], _ => 0
  | id :: rest, off =>
    let avail := (p.find id).distance_from_void off
    avail.distance +
      (if (p.find id).is_loadable = false ∧ avail.is_end = true then p.supply rest 0 else 0)

/-! ### Basic lemmas about the embedding -/

@[simp]
lemma sumAmounts_nil : sumAmounts [] = 0 := rfl

@[simp]
lemma sumAmounts_cons (r : TimelineRead) (rs : List TimelineRead) :
    sumAmounts (r :: rs) = r.amount + sumAmounts rs := by
  simp [sumAmounts]

@[simp]
lemma sumAmounts_append (a b : List TimelineRead) :
    sumAmounts (a ++ b) = sumAmounts a + sumAmounts b := by
  simp [sumAmounts]

lemma SinkData.set_state_fst_state (d : SinkData) (id : Nat) (s : SinkState) :
    (d.set_state id s).1.state = s := by
  unfold SinkData.set_state
  split
  · rfl
  · next h => simpa using not_not.mp (by simpa using h)

lemma SinkData.set_state_fst_buffer (d : SinkData) (id : Nat) (s : SinkState) :
    (d.set_state id s).1.buffer = d.buffer := by
  unfold SinkData.set_state
  split <;> rfl

lemma find?_map_update (l : List (Nat × SinkData)) (id : Nat) (f : SinkData → SinkData)
    (j : Nat) :
    ((l.map fun e => if e.1 = id then (e.1, f e.2) else e).find? fun e => e.1 == j)
      = if j = id then (l.find? fun e => e.1 == j).map (fun e => (e.1, f e.2))
        else l.find? fun e => e.1 == j := by
  induction l with
  | nil => split <;> simp
  | cons e l ih =>
    by_cases hj : e.1 = j
    · by_cases hid : e.1 = id
      · have hji : j = id := hj ▸ hid
        simp [List.find?, hj, hid, hji]
      · have hji : j ≠ id := fun h => hid (hj.trans h)
        simp [List.find?, hj, hid, hji]
    · have hb : (e.1 == j) = false := by simpa using hj
      by_cases hid : e.1 = id
      · have hji : j ≠ id := fun h => hj (hid.trans h.symm)
        have hb2 : (id == j) = false := by simpa using (Ne.symm hji)
        simp [List.find?, hb, hid, hji, hb2, ih]
      · simp [List.find?, hb, hid, ih]

lemma Pipeline.find_congr_sinks (p q : Pipeline) (h : p.sinks = q.sinks) (j : Nat) :
    p.find j = q.find j := by
  unfold Pipeline.find
  rw [h]

lemma Pipeline.find_modifySink (p : Pipeline) (id : Nat) (f : SinkData → SinkData)
    (j : Nat) :
    (p.modifySink id f).find j
      = if j = id then ((p.sinks.find? fun e => e.1 == j).elim (SinkData.new (some 0))
          fun e => f e.2)
        else p.find j := by
  unfold Pipeline.find Pipeline.modifySink
  rw [find?_map_update]
  by_cases h : j = id
  · rw [if_pos h, if_pos h]
    cases p.sinks.find? fun e => e.1 == j <;> rfl
  · rw [if_neg h, if_neg h]

lemma Pipeline.setState_sinks (p : Pipeline) (id : Nat) (s : SinkState) :
    (p.setState id s).sinks
      = (p.modifySink id fun _ => ((p.find id).set_state id s).1).sinks := rfl

lemma Pipeline.find_setState (p : Pipeline) (id : Nat) (s : SinkState) (j : Nat) :
    (p.setState id s).find j
      = (p.modifySink id fun _ => ((p.find id).set_state id s).1).find j :=
  Pipeline.find_congr_sinks _ _ (Pipeline.setState_sinks p id s) j

lemma Pipeline.find_setState_ne (p : Pipeline) (id : Nat) (s : SinkState) (j : Nat)
    (h : j ≠ id) : (p.setState id s).find j = p.find j := by
  rw [Pipeline.find_setState, Pipeline.find_modifySink, if_neg h]

lemma Pipeline.find_setState_buffer (p : Pipeline) (id : Nat) (s : SinkState) (j : Nat) :
    ((p.setState id s).find j).buffer = (p.find j).buffer := by
  by_cases h : j = id
  · subst h
    rw [Pipeline.find_setState, Pipeline.find_modifySink, if_pos rfl]
    unfold Pipeline.find
    cases hf : p.sinks.find? fun e => e.1 == j with
    | none => rfl
    | some e => simp [SinkData.set_state_fst_buffer, hf]
  · rw [Pipeline.find_setState_ne _ _ _ _ h]

lemma Pipeline.find_deactivate_state (p : Pipeline) (id : Nat) :
    ((p.setState id SinkState.idle).find id).state = SinkState.idle := by
  rw [Pipeline.find_setState, Pipeline.find_modifySink, if_pos rfl]
  unfold Pipeline.find
  cases hf : p.sinks.find? fun e => e.1 == id with
  | none => rfl
  | some e => simp [SinkData.set_state_fst_state, hf]

lemma Pipeline.find_setState_dfv (p : Pipeline) (id : Nat) (s : SinkState) (j off : Nat) :
    ((p.setState id s).find j).distance_from_void off
      = ((p.find j).distance_from_void off) := by
  unfold SinkData.distance_from_void
  rw [Pipeline.find_setState_buffer]

lemma Pipeline.supply_setState_idle (p : Pipeline) (id : Nat)
    (h : (p.find id).is_loadable = false) (ids : List Nat) :
    ∀ off, (p.setState id SinkState.idle).supply ids off = p.supply ids off := by
  induction ids with
  | nil => intro off; rfl
  | cons j rest ih =>
    intro off
    have hload : ((p.setState id SinkState.idle).find j).is_loadable
        = (p.find j).is_loadable := by
      by_cases hj : j = id
      · subst hj
        unfold SinkData.is_loadable
        rw [Pipeline.find_deactivate_state]
        unfold SinkData.is_loadable at h
        rw [h]; rfl
      · rw [Pipeline.find_setState_ne _ _ _ _ hj]
    unfold Pipeline.supply
    rw [Pipeline.find_setState_dfv, hload, ih]

/-! ### Lemmas about the advance loop -/

lemma Timeline.advanceLoop_zero (ids : List Nat) (p : Pipeline) (t : Timeline)
    (off : Nat) : Timeline.advanceLoop p t 0 off ids = ([], t, p, 0) := by
  cases ids <;> simp [Timeline.advanceLoop]

lemma Timeline.advanceLoop_sum (ids : List Nat) :
    ∀ (p : Pipeline) (t : Timeline) (rem off : Nat),
      sumAmounts (Timeline.advanceLoop p t rem off ids).1 = min rem (p.supply ids off) := by
  induction ids with
  | nil =>
    intro p t rem off
    simp [Timeline.advanceLoop, Pipeline.supply]
  | cons id rest ih =>
    intro p t rem off
    by_cases h0 : rem = 0
    · subst h0
      simp [Timeline.advanceLoop]
    · simp only [Timeline.advanceLoop, if_neg h0]
      have hsum1 : sumAmounts
          (if 0 < min ((p.find id).distance_from_void off).distance rem then
            ([{ sink := id, offset := off,
                amount := min ((p.find id).distance_from_void off).distance rem }] :
              List TimelineRead)
          else []) = min ((p.find id).distance_from_void off).distance rem := by
        split_ifs with h
        · simp
        · simp only [sumAmounts_nil]
          omega
      by_cases hmv : (p.find id).is_loadable = false ∧
          ((p.find id).distance_from_void off).is_end = true ∧
          ((p.find id).distance_from_void off).distance
            - min ((p.find id).distance_from_void off).distance rem = 0
      · rw [if_pos hmv]
        dsimp only
        rw [sumAmounts_append, hsum1, ih,
          Pipeline.supply_setState_idle p id hmv.1 rest 0]
        simp only [Pipeline.supply]
        rw [if_pos (And.intro hmv.1 hmv.2.1)]
        have h3 := hmv.2.2
        omega
      · rw [if_neg hmv]
        dsimp only
        rw [hsum1]
        simp only [Pipeline.supply]
        by_cases hc : (p.find id).is_loadable = false ∧
            ((p.find id).distance_from_void off).is_end = true
        · have h3 : ¬((p.find id).distance_from_void off).distance
              - min ((p.find id).distance_from_void off).distance rem = 0 :=
            fun h => hmv ⟨hc.1, hc.2, h⟩
          rw [if_pos hc]
          omega
        · rw [if_neg hc]
          omega

lemma Timeline.advanceLoop_reads_ok (ids : List Nat) :
    ∀ (p : Pipeline) (t : Timeline) (rem off : Nat),
      ∀ r ∈ (Timeline.advanceLoop p t rem off ids).1,
        0 < r.amount ∧
        r.amount ≤ ((p.find r.sink).distance_from_void r.offset).distance ∧
        (r.offset = off ∨ r.offset = 0) := by
  induction ids with
  | nil =>
    intro p t rem off r hr
    simp [Timeline.advanceLoop] at hr
  | cons id rest ih =>
    intro p t rem off r hr
    by_cases h0 : rem = 0
    · subst h0
      simp [Timeline.advanceLoop] at hr
    · simp only [Timeline.advanceLoop, if_neg h0] at hr
      by_cases hmv : (p.find id).is_loadable = false ∧
          ((p.find id).distance_from_void off).is_end = true ∧
          ((p.find id).distance_from_void off).distance
            - min ((p.find id).distance_from_void off).distance rem = 0
      · rw [if_pos hmv] at hr
        dsimp only at hr
        rcases List.mem_append.mp hr with hr1 | hr1
        · by_cases hpos : 0 < min ((p.find id).distance_from_void off).distance rem
          · rw [if_pos hpos] at hr1
            simp only [List.mem_singleton] at hr1
            subst hr1
            exact ⟨hpos, min_le_left _ _, Or.inl rfl⟩
          · rw [if_neg hpos] at hr1
            simp at hr1
        · have h2 := ih (p.setState id SinkState.idle) _
            (rem - min ((p.find id).distance_from_void off).distance rem) 0 r hr1
          refine ⟨h2.1, ?_, ?_⟩
          · have h3 := h2.2.1
            rwa [Pipeline.find_setState_dfv] at h3
          · rcases h2.2.2 with h | h <;> exact Or.inr h
      · rw [if_neg hmv] at hr
        dsimp only at hr
        by_cases hpos : 0 < min ((p.find id).distance_from_void off).distance rem
        · rw [if_pos hpos] at hr
          simp only [List.mem_singleton] at hr
          subst hr
          exact ⟨hpos, min_le_left _ _, Or.inl rfl⟩
        · rw [if_neg hpos] at hr
          simp at hr

lemma Timeline.advanceLoop_sublist (ids : List Nat) :
    ∀ (p : Pipeline) (t : Timeline) (rem off : Nat),
      ((Timeline.advanceLoop p t rem off ids).1.map fun r => r.sink).Sublist ids := by
  induction ids with
  | nil =>
    intro p t rem off
    simp [Timeline.advanceLoop]
  | cons id rest ih =>
    intro p t rem off
    by_cases h0 : rem = 0
    · subst h0
      simp [Timeline.advanceLoop]
    · simp only [Timeline.advanceLoop, if_neg h0]
      by_cases hmv : (p.find id).is_loadable = false ∧
          ((p.find id).distance_from_void off).is_end = true ∧
          ((p.find id).distance_from_void off).distance
            - min ((p.find id).distance_from_void off).distance rem = 0
      · rw [if_pos hmv]
        dsimp only
        by_cases hpos : 0 < min ((p.find id).distance_from_void off).distance rem
        · rw [if_pos hpos]
          simpa using List.Sublist.cons₂ id (ih _ _ _ _)
        · rw [if_neg hpos]
          exact List.Sublist.cons id (ih _ _ _ _)
      · rw [if_neg hmv]
        dsimp only
        by_cases hpos : 0 < min ((p.find id).distance_from_void off).distance rem
        · rw [if_pos hpos]
          exact List.Sublist.cons₂ id (List.nil_sublist rest)
        · rw [if_neg hpos]
          simp

lemma Timeline.advanceLoop_total (ids : List Nat) :
    ∀ (p : Pipeline) (t : Timeline) (rem off : Nat),
      (Timeline.advanceLoop p t rem off ids).2.1.total_offset
        = t.total_offset + sumAmounts (Timeline.advanceLoop p t rem off ids).1 := by
  induction ids with
  | nil =>
    intro p t rem off
    simp [Timeline.advanceLoop]
  | cons id rest ih =>
    intro p t rem off
    by_cases h0 : rem = 0
    · subst h0
      simp [Timeline.advanceLoop]
    · simp only [Timeline.advanceLoop, if_neg h0]
      by_cases hmv : (p.find id).is_loadable = false ∧
          ((p.find id).distance_from_void off).is_end = true ∧
          ((p.find id).distance_from_void off).distance
            - min ((p.find id).distance_from_void off).distance rem = 0
      · rw [if_pos hmv]
        dsimp only
        rw [sumAmounts_append, ih]
        by_cases hpos : 0 < min ((p.find id).distance_from_void off).distance rem
        · simp only [if_pos hpos]
          simp
          omega
        · simp only [if_neg hpos]
          simp
      · rw [if_neg hmv]
        dsimp only
        by_cases hpos : 0 < min ((p.find id).distance_from_void off).distance rem
        · simp only [if_pos hpos]
          simp
        · simp only [if_neg hpos]
          simp

lemma reads_nil_iff_sum_zero (l : List TimelineRead) (h : ∀ r ∈ l, 0 < r.amount) :
    l = [] ↔ sumAmounts l = 0 := by
  cases l with
  | nil => simp
  | cons r rs =>
    have := h r (List.mem_cons_self r rs)
    simp only [sumAmounts_cons]
    constructor
    · intro hc
      exact absurd hc (by simp)
    · intro hc
      omega

lemma Timeline.advance_sum (t : Timeline) (p : Pipeline) (n : Nat) :
    sumAmounts (t.advance p n).1 = min n (p.supply (t.playable p) t.offset) :=
  Timeline.advanceLoop_sum (t.playable p) p t n t.offset

lemma Timeline.advance_total (t : Timeline) (p : Pipeline) (n : Nat) :
    (t.advance p n).2.1.total_offset = t.total_offset + sumAmounts (t.advance p n).1 :=
  Timeline.advanceLoop_total (t.playable p) p t n t.offset

lemma Pipeline.setState_events_total (p : Pipeline) (id : Nat) (s : SinkState) :
    (p.setState id s).events = p.events ++ ((p.find id).set_state id s).2 := rfl

lemma applyOp_total (s : Timeline × Pipeline) (op : TimelineOp) :
    (applyOp s op).1.1.total_offset = s.1.total_offset + sumAmounts (applyOp s op).2 := by
  obtain ⟨t, p⟩ := s
  cases op with
  | advanceOp n => simpa using Timeline.advance_total t p n
  | setSinksOp ids => simp [applyOp, Timeline.set_sinks]
  | preloadOp => simp [applyOp]
  | resetOp => simp [applyOp, Timeline.reset]
  | clearOp => simp [applyOp]
  | writeOp id offset len => simp [applyOp]
  | sinkStateOp id st => simp [applyOp]

lemma runOps_total (ops : List TimelineOp) :
    ∀ s : Timeline × Pipeline,
      (runOps s ops).1.1.total_offset
        = s.1.total_offset + sumAmounts (runOps s ops).2 := by
  induction ops with
  | nil => intro s; simp [runOps]
  | cons op rest ih =>
    intro s
    simp only [runOps, sumAmounts_append]
    rw [ih, applyOp_total]
    omega

/-! ### Concrete instances used by witnesses and counterexamples -/

/-- An arbitrary configuration; `Timeline::advance` and `set_sinks` never
read it. -/
def defaultConfig : Config :=
  { sample_rate := 44100, channel_count := 2, preload_threshold_in_seconds := 10,
    preload_size_in_seconds := 10 }

/-- A sealed sink of expected length 3 whose 3 samples are all written. -/
def c1Sink : SinkData :=
  { (SinkData.new (some 3)).write 0 3 with state := SinkState.sealed }

def c1p : Pipeline := { sinks := [(1, c1Sink)], events := [] }

def c1t : Timeline := { Timeline.new defaultConfig with sinkIds := [1] }

/-- An active sink of expected length 10 with no samples written. -/
def c2Sink : SinkData := { SinkData.new (some 10) with state := SinkState.active }

def c2p : Pipeline := { sinks := [(1, c2Sink)], events := [] }

def c2t : Timeline := { Timeline.new defaultConfig with sinkIds := [1] }

/-- A sealed sink of expected length 3 whose 3 samples are all written. -/
def c3Sink : SinkData :=
  { (SinkData.new (some 3)).write 0 3 with state := SinkState.sealed }

def c3p : Pipeline := { sinks := [(4, c3Sink)], events := [] }

def c3t : Timeline := { Timeline.new defaultConfig with sinkIds := [4] }

/-- A loading sink, kept across a `set_sinks` call. -/
def c5Sink : SinkData := { SinkData.new (some 10) with state := SinkState.loading }

def c5p : Pipeline := { sinks := [(2, c5Sink)], events := [] }

def c5t : Timeline := { Timeline.new defaultConfig with sinkIds := [2], offset := 5 }

/-- The configuration of spec scenario S2: threshold of 3 samples. -/
def s2Config : Config :=
  { sample_rate := 1, channel_count := 1, preload_threshold_in_seconds := 3,
    preload_size_in_seconds := 1 }

def s2p0 : Pipeline :=
  { sinks := [(1, SinkData.new (some 10)), (2, SinkData.new (some 10))], events := [] }

/-- S2 setup: fresh timeline holding the two fresh sinks (both active). -/
def s2Init : Timeline × Pipeline := (Timeline.new s2Config).set_sinks s2p0 [1, 2]

def s2t : Timeline := s2Init.1

def s2p1 : Pipeline := s2Init.2

/-- S2 after writing 3 samples to sink 1. -/
def s2p2 : Pipeline := s2p1.writeSink 1 0 3

/-- S2 after moving the cursor to offset 2. -/
def s2t2 : Timeline := { s2t with offset := 2 }

/-- S2 after sealing sink 1 with only 3 samples written. -/
def s2p3 : Pipeline := s2p2.setState 1 SinkState.sealed

/-! ### The claims -/

/-- C1, counterexample: a sink that has reached `Sealed` does transition
again — `Timeline::advance`, on removing the finished sealed head sink,
deactivates it, and its state becomes `Idle`. -/
theorem claim_c1_counterexample :
    (c1p.find 1).state = SinkState.sealed ∧
    (((c1t.advance c1p 10).2.2).find 1).state = SinkState.idle := by
  decide

/-- C1 (amended): `Sink::set_state` has no monotonicity guard: it stores
the requested state unconditionally (emitting a `SinkStateUpdate` event
exactly when the new state differs from the current one), so the
deactivations performed by `Timeline::advance` and `Timeline::set_sinks`
move a `Sealed` or `Error` sink to `Idle`. -/
theorem claim_c1_amended (d : SinkData) (id : Nat) (s : SinkState) :
    ((d.set_state id s).1).state = s ∧
    (d.set_state id s).2
      = (if d.state = s then [] else [PipelineEvent.SinkStateUpdate id s]) := by
  unfold SinkData.set_state
  by_cases h : d.state = s
  · simp [h]
  · simp [h]

/-- C2, counterexample: `advance(5)` on a timeline whose head sink is
playable (`Active`) but has no samples buffered at the cursor returns the
empty vector even though the timeline is not at its end: the sink stays
queued, playable, and untouched. -/
theorem claim_c2_counterexample :
    (c2t.advance c2p 5).1 = [] ∧
    (c2t.advance c2p 5).2.1.sinkIds = [1] ∧
    (c2p.find 1).is_playable = true ∧
    ((c2t.advance c2p 5).2.2.find 1).state = SinkState.active := by
  decide

/-- C2 (amended): `advance(n)` returns the empty vector iff `n = 0` or
the playable sinks can supply no samples from the current cursor — i.e.
every playable sink the walk reaches has an empty contiguous run there,
the walk passing a sink only when it is finished (not loadable and at its
end).  In particular an under-buffered playable head sink also yields an
empty return (and is not removed). -/
theorem claim_c2_amended (t : Timeline) (p : Pipeline) (n : Nat) :
    (t.advance p n).1 = [] ↔ (n = 0 ∨ p.supply (t.playable p) t.offset = 0) := by
  have hpos : ∀ r ∈ (t.advance p n).1, 0 < r.amount := fun r hr =>
    (Timeline.advanceLoop_reads_ok (t.playable p) p t n t.offset r hr).1
  rw [reads_nil_iff_sum_zero _ hpos, Timeline.advance_sum]
  omega

/-- C3, counterexample: `advance(10)` on a timeline whose sealed head
sink holds exactly its 3 expected samples returns reads summing to 3,
not 10, although that head sink was ready to be moved past (it was
finished — not loadable and at its end — and was indeed removed). -/
theorem claim_c3_counterexample :
    (c3t.advance c3p 10).1 = [{ sink := 4, offset := 0, amount := 3 }] ∧
    sumAmounts (c3t.advance c3p 10).1 = 3 ∧
    (c3t.advance c3p 10).2.1.sinkIds = [] ∧
    (c3p.find 4).is_loadable = false ∧
    ((c3p.find 4).distance_from_void 0).is_end = true := by
  decide

/-- C3 (amended): for every `advance(n)`: the returned reads are in
playback order (their sink ids form a sublist of the playable sinks),
each read is nonempty, backed by at least `amount` contiguous samples at
its offset, and starts at the cursor or at 0; and the sum of the `amount`
fields equals `min n s` where `s` is the number of samples the playable
sinks can supply from the cursor — hence the sum is at most `n`, and
equals `n` unless the playable sinks could not supply `n` samples
(an under-buffered head that is not moved past, or the walk exhausting
every playable sink). -/
theorem claim_c3_amended (t : Timeline) (p : Pipeline) (n : Nat) :
    (((t.advance p n).1.map fun r => r.sink).Sublist (t.playable p)) ∧
    ((t.advance p n).1.all fun r =>
      decide (0 < r.amount ∧
        r.amount ≤ ((p.find r.sink).distance_from_void r.offset).distance ∧
        (r.offset = t.offset ∨ r.offset = 0))) = true ∧
    sumAmounts (t.advance p n).1 = min n (p.supply (t.playable p) t.offset) ∧
    sumAmounts (t.advance p n).1 ≤ n := by
  refine ⟨Timeline.advanceLoop_sublist (t.playable p) p t n t.offset, ?_,
    Timeline.advance_sum t p n, ?_⟩
  · rw [List.all_eq_true]
    intro r hr
    exact decide_eq_true
      (Timeline.advanceLoop_reads_ok (t.playable p) p t n t.offset r hr)
  · rw [Timeline.advance_sum]
    exact min_le_left _ _

/-- C4: starting from a fresh timeline, after any sequence of operations
the `total_offset` equals the sum of the `amount` fields of all reads the
`advance` calls in the sequence returned; and no single operation ever
decreases `total_offset`. -/
theorem claim_c4 (cfg : Config) (p0 : Pipeline) (ops : List TimelineOp) :
    (runOps (Timeline.new cfg, p0) ops).1.1.total_offset
      = sumAmounts (runOps (Timeline.new cfg, p0) ops).2 ∧
    ∀ (s : Timeline × Pipeline) (op : TimelineOp),
      s.1.total_offset ≤ (applyOp s op).1.1.total_offset := by
  constructor
  · have h := runOps_total ops (Timeline.new cfg, p0)
    simpa [Timeline.new] using h
  · intro s op
    rw [applyOp_total]
    omega

/-- C5, evaluated at the failing input: `set_sinks([2])` on a timeline
whose current list is `[2]` with sink 2 in state `Loading` — the claim
says a sink present in both lists keeps its state and emits no event, but
the code deactivates every old sink and activates every new one: two
`SinkStateUpdate` events are emitted and the sink ends `Active`, losing
`Loading`.  The offset is indeed left unchanged. -/
theorem claim_c5_code_bug :
    (c5t.set_sinks c5p [2]).2.events
      = [PipelineEvent.SinkStateUpdate 2 SinkState.idle,
         PipelineEvent.SinkStateUpdate 2 SinkState.active] ∧
    ((c5t.set_sinks c5p [2]).2.find 2).state = SinkState.active ∧
    (c5t.set_sinks c5p [2]).1.offset = 5 := by
  decide

/-- C6: `Timeline::preload` mutates nothing, so two consecutive calls
with no intervening operation see the same state and return identical
vectors of intents. -/
theorem claim_c6 (t : Timeline) (p : Pipeline) :
    (applyOp (t, p) TimelineOp.preloadOp).1 = (t, p) ∧
    Timeline.preload (applyOp (t, p) TimelineOp.preloadOp).1.1
        (applyOp (t, p) TimelineOp.preloadOp).1.2
      = Timeline.preload t p :=
  ⟨rfl, rfl⟩

/-- C7: the preload-threshold scenario S2 (sample_rate 1, channel_count
1, threshold 3 s, two active sinks of expected length 10): with no
samples `preload()` yields `[{1, 0}]`; after writing 3 samples to sink 1
it yields `[]`; with the cursor at offset 2 it yields `[{1, 3}]`; after
sealing sink 1 with only 3 samples it yields `[{2, 0}]`. -/
theorem claim_c7 :
    s2t.preload s2p1 = [{ sink_id := 1, offset := 0 }] ∧
    s2t.preload s2p2 = [] ∧
    s2t2.preload s2p2 = [{ sink_id := 1, offset := 3 }] ∧
    s2t2.preload s2p3 = [{ sink_id := 2, offset := 0 }] := by
  decide

/-- C8: the classification predicates of `Sink`: `is_playable` holds iff
the state is Active, Loading or Sealed; `is_loadable` holds iff the state
is none of Idle, Sealed, Error; `is_clearable` holds iff the state is
Idle. -/
theorem claim_c8 (s : SinkState) :
    (s.is_playable = true ↔ s = SinkState.active ∨ s = SinkState.loading ∨
      s = SinkState.sealed) ∧
    (s.is_loadable = true ↔ ¬(s = SinkState.idle ∨ s = SinkState.sealed ∨
      ∃ r, s = SinkState.error r)) ∧
    (s.is_clearable = true ↔ s = SinkState.idle) := by
  cases s <;>
    simp [SinkState.is_playable, SinkState.is_loadable, SinkState.is_clearable]

/-- C9, counterexample: at a state-changing call (Idle to Active) the
body of `Sink::set_state` emits the `SinkStateUpdate` event strictly
before storing the new state, so the stored transition does not precede
the event as the claim requires. -/
theorem claim_c9_counterexample :
    set_state_actions 7 SinkState.idle SinkState.active
      = [SinkAction.emit (PipelineEvent.SinkStateUpdate 7 SinkState.active),
         SinkAction.store SinkState.active] ∧
    storePrecedesEmit (set_state_actions 7 SinkState.idle SinkState.active) = false := by
  decide

/-- C9 (amended): whenever `Sink::set_state` changes the state, it first
emits the `SinkStateUpdate` event carrying the new state and then stores
the new state — emission precedes the stored transition in program
order. -/
theorem claim_c9_amended (id : Nat) (current next : SinkState) (h : current ≠ next) :
    set_state_actions id current next
      = [SinkAction.emit (PipelineEvent.SinkStateUpdate id next),
         SinkAction.store next] := by
  simp [set_state_actions, h]

/-- C9 witness: the amended theorem applied at the Idle-to-Active
transition. -/
theorem claim_c9_witness :
    SinkState.idle ≠ SinkState.active ∧
    set_state_actions 0 SinkState.idle SinkState.active
      = [SinkAction.emit (PipelineEvent.SinkStateUpdate 0 SinkState.active),
         SinkAction.store SinkState.active] :=
  ⟨by decide, claim_c9_amended 0 SinkState.idle SinkState.active (by decide)⟩

/-- C10: `advance(0)` is a no-op on every timeline state: it returns the
empty vector, removes no sink, changes no sink state or event, and leaves
`offset` and `total_offset` unchanged. -/
theorem claim_c10 (t : Timeline) (p : Pipeline) :
    t.advance p 0 = ([], t, p) := by
  unfold Timeline.advance
  rw [Timeline.advanceLoop_zero]

end Turntable
